import Mathlib

/-!
Verification of the MsPASS `CoreTimeSeries` data object
(src/cxx/include/mspass/seismic/CoreTimeSeries.h) against its
natural-language specification.

Shallow embedding conventions:
* C++ `double` values (`t0`, `dt`, the samples) are modelled as `ℚ`
  (exact arithmetic; the shapes of all formulas are preserved).
* `std::vector<double> s` is modelled as `List ℚ`.
* `size_t` quantities are modelled as `ℕ`, with wraparound `% 2 ^ 64`
  made explicit wherever the C++ code performs unsigned subtraction or a
  signed-to-unsigned conversion.
* Methods are pure Lean functions: a `const` method maps the object to a
  result, a mutating method maps the old object to the new object, and a
  method that can throw returns `Except`.  In this pure setting a method
  never mutates its by-const-reference argument by construction.
-/

namespace MsPASS

/-- The slice of the external `BasicTimeSeries` base class that
`CoreTimeSeries` consumes: start time `t0`, sample interval `dt`, and the
liveness flag.  (The spec lists exactly these as the consumed interface.) -/
structure BasicTimeSeries where
  t0 : ℚ
  dt : ℚ
  live : Bool
deriving DecidableEq, Repr

/-- The slice of the external `Metadata` (attribute store) base class that
`CoreTimeSeries` consumes: a keyed attribute map with value semantics.  The
claims only require that it is carried and copied, so values are modelled
as `ℚ`; nothing here depends on their type. -/
structure Metadata where
  md : List (String × ℚ)
deriving DecidableEq, Repr

/-- `class CoreTimeSeries : public BasicTimeSeries, public Metadata`
with the public data member `vector<double> s`. -/
structure CoreTimeSeries extends BasicTimeSeries, Metadata where
  s : List ℚ
deriving DecidableEq, Repr

/-- The error taxonomy relevant to the claims: the header documents that
`operator[]` throws a `SeisppError` when the requested sample is outside
the range of the data (including the implicit "outside" of a dead object);
the spec calls this condition `OutOfRange`. -/
inductive SeisppError where
  | OutOfRange
deriving DecidableEq, Repr

/-- `endtime() const noexcept { return (t0 + dt * static_cast<double>(s.size() - 1)); }`
translated from the inline definition in CoreTimeSeries.h.  `s.size()` is a
`size_t`, so `s.size() - 1` is computed modulo `2 ^ 64`: for a non-empty
buffer this is the ordinary `len - 1`, while for an empty buffer it wraps
to `2 ^ 64 - 1`.  The function is total (the C++ is `noexcept`). -/
def endtime (x : CoreTimeSeries) : ℚ :=
  x.t0 + x.dt * (((x.s.length + 2 ^ 64 - 1) % 2 ^ 64 : ℕ) : ℚ)

/-- Modelled from the spec: the body of `double operator[](size_t const sample) const`
is not among the given sources (the header has only its declaration and doc
comment).  Per the spec and the header doc, it returns `s[sample]` after a
range check, failing with `OutOfRange` when `sample` is outside
`[0, len(s))` or when the object is marked dead.  The index parameter is
`ℕ` because the C++ parameter is the unsigned `size_t`. -/
def getSample (x : CoreTimeSeries) (sample : ℕ) : Except SeisppError ℚ :=
  if x.live = true ∧ sample < x.s.length then
    Except.ok (x.s.getD sample 0)
  else
    Except.error SeisppError.OutOfRange

/-- The C++ implicit conversion applied when a caller passes a signed
integer (e.g. the literal `-1`) to the `size_t` parameter of `operator[]`:
the value is reduced modulo `2 ^ 64`. -/
def intToSizeT (i : ℤ) : ℕ := (i % (2 ^ 64 : ℤ)).toNat

/-- Nearest-integer rounding of a rational, written directly on the
`num`/`den` representation so that it evaluates by kernel reduction.
`nint_eq_floor` below proves it equal to `⌊q + 1/2⌋`. -/
def nint (q : ℚ) : ℤ := (2 * q.num + q.den) / (2 * q.den)

/-- Modelled from the spec: the body of
`CoreTimeSeries& operator+=(const CoreTimeSeries& d)` is not among the
given sources (the header has only its declaration: "Summation operator.
Simple version of stack. Aligns data before summing.").  Per the spec, the
sample-index offset of `d` relative to `x` is determined from the two
start times and the shared `dt` (`(d.t0 - x.t0) / dt`, rounded to the
nearest index); each target sample whose aligned index falls inside `d`'s
buffer receives the sum, every other target sample is left unchanged, the
target buffer is never resized, and a dead operand on either side makes
the whole operation a no-op. -/
def plusAssign (x d : CoreTimeSeries) : CoreTimeSeries :=
  if x.live = true ∧ d.live = true then
    let i0 : ℤ := nint ((d.t0 - x.t0) / x.dt)
    { x with s := (List.range x.s.length).map (fun i : ℕ =>
        if 0 ≤ (i : ℤ) - i0 ∧ (i : ℤ) - i0 < (d.s.length : ℤ) then
          x.s.getD i 0 + d.s.getD ((i : ℤ) - i0).toNat 0
        else
          x.s.getD i 0) }
  else
    x

/-- Modelled from the spec: the body of
`CoreTimeSeries& operator=(const CoreTimeSeries&)` is not among the given
sources.  Per the spec, copy assignment replaces the target's TimeBase,
AttributeStore and sample buffer with copies of the source's and returns
the assigned-to object (here: the new value of the target). -/
def assign (_lhs rhs : CoreTimeSeries) : CoreTimeSeries :=
  { t0 := rhs.t0, dt := rhs.dt, live := rhs.live, md := rhs.md, s := rhs.s }

/-- Modelled from the spec: the body of the default constructor
`CoreTimeSeries()` is not among the given sources.  Per the header doc it
"initializes object data to zeros and sets the initial STL vector size to
0 length"; per the spec the result has a zeroed/default TimeBase and an
empty AttributeStore, representing "no data yet". -/
def coreTimeSeriesDefault : CoreTimeSeries :=
  { t0 := 0, dt := 0, live := false, md := [], s := [] }

/-- Modelled from the spec: the body of the sized constructor
`CoreTimeSeries(int nsin)` is not among the given sources.  Per the header
doc it is "similar to the default constructor but creates a vector of data
with nsin samples and initializes all samples to 0.0".  The parameter is
`ℕ`, reflecting the spec precondition `n ≥ 0` (negative requests are a
contract violation rejected at construction, outside the claims). -/
def coreTimeSeriesSized (nsin : ℕ) : CoreTimeSeries :=
  { coreTimeSeriesDefault with s := List.replicate nsin 0 }

/-- Modelled from the spec: the liveness toggle consumed from the
TimeBase interface (spec section 6), used to mark an object live. -/
def set_live (x : CoreTimeSeries) : CoreTimeSeries := { x with live := true }

/-- Series A of the spec's concrete scenario: `t0=0.0, dt=1.0, s=[1,2,3]`,
live. -/
def seriesA : CoreTimeSeries :=
  { t0 := 0, dt := 1, live := true, md := [], s := [1, 2, 3] }

/-- Series B of the spec's concrete scenario: `t0=1.0, dt=1.0, s=[10,10,10]`,
live. -/
def seriesB : CoreTimeSeries :=
  { t0 := 1, dt := 1, live := true, md := [], s := [10, 10, 10] }

/-! ### Helper lemmas (shared) -/

/-- `nint` is nearest-integer rounding: it agrees with `⌊q + 1/2⌋`. -/
theorem nint_eq_floor (q : ℚ) : nint q = ⌊q + 1 / 2⌋ := by
  have hd0 : ((q.den : ℚ)) ≠ 0 := by positivity
  have hq : q + 1 / 2 = ((2 * q.num + (q.den : ℤ) : ℤ) : ℚ) / ((2 * q.den : ℕ) : ℚ) := by
    conv_lhs => rw [← Rat.num_div_den q]
    push_cast
    field_simp
    ring
  rw [hq, Rat.floor_intCast_div_natCast]
  unfold nint
  push_cast
  rfl

/-- The rounded offset of two coincident start times is zero. -/
theorem nint_zero : nint 0 = 0 := by
  norm_num [nint, Rat.num_zero, Rat.den_zero]

/-- The offset computed by `plusAssign` for the concrete scenario series:
B starts one sample after A. -/
theorem nintAB : nint ((seriesB.t0 - seriesA.t0) / seriesA.dt) = 1 := by
  norm_num [nint, seriesA, seriesB]

/-- `getD` with default 0 agrees with `get` inside the bounds. -/
theorem getD_eq_get (l : List ℚ) (i : ℕ) (h : i < l.length) :
    l.getD i 0 = l.get ⟨i, h⟩ := by
  rw [List.getD_eq_getElem?_getD, List.getElem?_eq_getElem h]
  rfl

/-- Reading the `i`-th element of a tabulated list evaluates the
tabulating function at `i`. -/
theorem getD_map_range (n : ℕ) (f : ℕ → ℚ) (i : ℕ) (h : i < n) :
    ((List.range n).map f).getD i 0 = f i := by
  have hlen : i < ((List.range n).map f).length := by simpa using h
  rw [getD_eq_get _ _ hlen, List.get_eq_getElem, List.getElem_map,
    List.getElem_range]

/-- Tabulating a list by its own `getD` reads reproduces the list. -/
theorem map_range_getD (l : List ℚ) :
    (List.range l.length).map (fun i => l.getD i 0) = l := by
  apply List.ext_getElem
  · simp
  · intro i h1 h2
    rw [List.getElem_map, List.getElem_range, getD_eq_get _ _ h2,
      List.get_eq_getElem]

/-! ### The claims -/

/-- C1: with A = (t0=0, dt=1, s=[1,2,3]) and B = (t0=1, dt=1, s=[10,10,10]),
both live, `A += B` leaves A's sample buffer equal to [1, 12, 13], the
overlap starting at A's index 1 as given by the offset `(B.t0 - A.t0)/dt`,
and afterwards `A.endtime()` returns 2. -/
theorem C1_concrete_stack :
    (plusAssign seriesA seriesB).s = [1, 12, 13] ∧
    nint ((seriesB.t0 - seriesA.t0) / seriesA.dt) = 1 ∧
    endtime (plusAssign seriesA seriesB) = 2 := by
  refine ⟨?_, nintAB, ?_⟩
  · unfold plusAssign
    rw [if_pos ⟨rfl, rfl⟩]
    simp only [nintAB]
    norm_num [seriesA, seriesB, List.range_succ]
  · unfold endtime plusAssign
    rw [if_pos ⟨rfl, rfl⟩]
    norm_num [seriesA, seriesB]

/-- Two CoreTimeSeries with empty sample buffers but different start
times, used to examine `endtime` on zero-length data. -/
def emptyA : CoreTimeSeries :=
  { t0 := 0, dt := 0, live := false, md := [], s := [] }

/-- A second empty series, differing from `emptyA` only in `t0`. -/
def emptyB : CoreTimeSeries :=
  { t0 := 5, dt := 0, live := false, md := [], s := [] }

/-- C2: the read accessor `operator[]` fails with `OutOfRange` exactly when
the index is outside `[0, len(s))` or the liveness flag is false; otherwise
it returns the value stored at position `i` of the sample buffer.  (The
accessor is `const` in the source and is embedded as a pure function, so it
mutates nothing by construction.) -/
theorem C2_index_contract (x : CoreTimeSeries) (i : ℕ) :
    (getSample x i = Except.error SeisppError.OutOfRange ↔
      x.s.length ≤ i ∨ x.live = false) ∧
    (x.live = true → ∀ h : i < x.s.length,
      getSample x i = Except.ok (x.s.get ⟨i, h⟩)) := by
  unfold getSample
  by_cases hl : x.live = true
  · by_cases hi : i < x.s.length
    · rw [if_pos ⟨hl, hi⟩]
      constructor
      · constructor
        · intro he
          cases he
        · intro hor
          rcases hor with h1 | h2
          · omega
          · rw [hl] at h2
            cases h2
      · intro _ h
        rw [getD_eq_get x.s i h]
    · rw [if_neg (by tauto)]
      refine ⟨⟨fun _ => Or.inl (by omega), fun _ => rfl⟩, fun _ h => absurd h hi⟩
  · rw [if_neg (by tauto)]
    constructor
    · refine ⟨fun _ => Or.inr ?_, fun _ => rfl⟩
      cases hb : x.live
      · rfl
      · exact absurd hb hl
    · intro h1
      exact absurd h1 hl

/-- C2 witness: reading sample 1 of the live series A succeeds and returns
the stored value. -/
theorem C2_witness :
    getSample seriesA 1 = Except.ok (seriesA.s.get ⟨1, by decide⟩) :=
  (C2_index_contract seriesA 1).2 rfl (by decide)

/-- C3: for a non-empty sample buffer (of any length a `size_t` can hold),
`endtime()` returns exactly `t0 + dt * (len(s) - 1)`.  The function is
total in this embedding, matching the `noexcept` of the source. -/
theorem C3_endtime_nonempty (x : CoreTimeSeries) (h1 : 0 < x.s.length)
    (h2 : x.s.length < 2 ^ 64) :
    endtime x = x.t0 + x.dt * ((x.s.length : ℚ) - 1) := by
  unfold endtime
  have h3 : (x.s.length + 2 ^ 64 - 1) % 2 ^ 64 = x.s.length - 1 := by omega
  rw [h3, Nat.cast_sub h1, Nat.cast_one]

/-- C3 witness: the endtime of the three-sample series A is its
`t0 + dt * 2`. -/
theorem C3_witness :
    endtime seriesA = seriesA.t0 + seriesA.dt * ((seriesA.s.length : ℚ) - 1) :=
  C3_endtime_nonempty seriesA (by decide) (by norm_num [seriesA])

/-- C4 counterexample: two CoreTimeSeries with empty sample buffers on
which `endtime()` returns different values (0 and 5), refuting the claim
that every empty object yields one single fixed sentinel value. -/
theorem C4_counterexample :
    emptyA.s.length = 0 ∧ emptyB.s.length = 0 ∧
    endtime emptyA ≠ endtime emptyB := by
  refine ⟨rfl, rfl, ?_⟩
  unfold endtime
  norm_num [emptyA, emptyB]

/-- C4 as amended: on an empty buffer `endtime()` performs no undefined
access and returns `t0 + dt * (2^64 - 1)` — `s.size() - 1` wraps around on
the unsigned `size_t` — a well-defined value that depends on `t0` and `dt`
rather than being a single fixed sentinel shared by all empty objects. -/
theorem C4_amended_endtime_empty (x : CoreTimeSeries) (h : x.s.length = 0) :
    endtime x = x.t0 + x.dt * ((2 ^ 64 - 1 : ℕ) : ℚ) := by
  unfold endtime
  rw [h]
  norm_num

/-- C4 witness: the amended statement evaluated on a concrete empty
series. -/
theorem C4_witness :
    endtime emptyA = emptyA.t0 + emptyA.dt * ((2 ^ 64 - 1 : ℕ) : ℚ) :=
  C4_amended_endtime_empty emptyA rfl

/-- C5: for two live series with identical `t0`, identical `dt`, and
identical buffer length, `x += y` makes every sample of x the sum of the
two inputs' corresponding samples; and `x += y` with a zero-length y
leaves x unchanged (for every x, regardless of liveness). -/
theorem C5_aligned_sum_and_empty_noop :
    (∀ x y : CoreTimeSeries, x.live = true → y.live = true →
      x.t0 = y.t0 → x.dt = y.dt → x.s.length = y.s.length →
      ∀ i, i < x.s.length →
        (plusAssign x y).s.getD i 0 = x.s.getD i 0 + y.s.getD i 0) ∧
    (∀ x y : CoreTimeSeries, y.s = [] → plusAssign x y = x) := by
  constructor
  · intro x y hx hy ht hd hn i hi
    unfold plusAssign
    rw [if_pos ⟨hx, hy⟩]
    have h0 : nint ((y.t0 - x.t0) / x.dt) = 0 := by
      rw [← ht, sub_self, zero_div, nint_zero]
    simp only [h0, sub_zero]
    rw [getD_map_range _ _ i hi]
    rw [if_pos ⟨by omega, by omega⟩, Int.toNat_natCast]
  · intro x y hy
    unfold plusAssign
    by_cases hc : x.live = true ∧ y.live = true
    · rw [if_pos hc]
      have hfun : (fun i : ℕ =>
          if 0 ≤ (i : ℤ) - nint ((y.t0 - x.t0) / x.dt) ∧
              (i : ℤ) - nint ((y.t0 - x.t0) / x.dt) < (y.s.length : ℤ) then
            x.s.getD i 0 + y.s.getD ((i : ℤ) - nint ((y.t0 - x.t0) / x.dt)).toNat 0
          else
            x.s.getD i 0) = fun i : ℕ => x.s.getD i 0 := by
        funext i
        rw [if_neg]
        rw [hy]
        simp only [List.length_nil, Nat.cast_zero]
        omega
      show { x with s := (List.range x.s.length).map _ } = x
      rw [hfun, map_range_getD]
    · rw [if_neg hc]

/-- C5 witness: stacking the live series A onto itself doubles sample 0,
and stacking the empty default-constructed series into A is a no-op. -/
theorem C5_witness :
    (plusAssign seriesA seriesA).s.getD 0 0 =
      seriesA.s.getD 0 0 + seriesA.s.getD 0 0 ∧
    plusAssign seriesA coreTimeSeriesDefault = seriesA :=
  ⟨C5_aligned_sum_and_empty_noop.1 seriesA seriesA rfl rfl rfl rfl rfl 0
      (by decide),
   C5_aligned_sum_and_empty_noop.2 seriesA coreTimeSeriesDefault rfl⟩

/-- C6: when either operand of `x += y` is dead, the operation is a
complete no-op on x (the policy the spec allows in place of an explicit
failure): no valid-looking summed output is produced from dead data. -/
theorem C6_dead_operand_noop (x y : CoreTimeSeries)
    (h : x.live = false ∨ y.live = false) :
    plusAssign x y = x := by
  have hc : ¬(x.live = true ∧ y.live = true) := by
    rintro ⟨h1, h2⟩
    rcases h with h | h
    · rw [h] at h1
      cases h1
    · rw [h] at h2
      cases h2
  unfold plusAssign
  rw [if_neg hc]

/-- C6 witness: stacking the live series B into the dead series emptyA
leaves emptyA unchanged. -/
theorem C6_witness : plusAssign emptyA seriesB = emptyA :=
  C6_dead_operand_noop emptyA seriesB (Or.inl rfl)

/-- C7: `x += y` mutates only x's sample values: x's `t0`, `dt`, liveness
flag, attribute store and buffer length are unchanged (the buffer is never
resized), and every target sample whose aligned index falls outside y's
buffer is unchanged.  (y is passed by const reference in the source; the
embedding is a pure function of both arguments, so y is not mutated by
construction.) -/
theorem C7_frame_conditions (x y : CoreTimeSeries) :
    ((plusAssign x y).t0 = x.t0 ∧ (plusAssign x y).dt = x.dt ∧
     (plusAssign x y).live = x.live ∧ (plusAssign x y).md = x.md ∧
     (plusAssign x y).s.length = x.s.length) ∧
    (∀ i, i < x.s.length →
      ((i : ℤ) - nint ((y.t0 - x.t0) / x.dt) < 0 ∨
        (y.s.length : ℤ) ≤ (i : ℤ) - nint ((y.t0 - x.t0) / x.dt)) →
      (plusAssign x y).s.getD i 0 = x.s.getD i 0) := by
  unfold plusAssign
  by_cases hc : x.live = true ∧ y.live = true
  · rw [if_pos hc]
    refine ⟨⟨rfl, rfl, rfl, rfl, by simp⟩, ?_⟩
    intro i hi hout
    rw [getD_map_range _ _ i hi]
    rw [if_neg (by omega)]
  · rw [if_neg hc]
    exact ⟨⟨rfl, rfl, rfl, rfl, rfl⟩, fun i hi hout => rfl⟩

/-- C7 witness: for the concrete scenario, `A += B` keeps A's start time,
and keeps sample 0 (which lies before B's window) unchanged. -/
theorem C7_witness :
    (plusAssign seriesA seriesB).t0 = seriesA.t0 ∧
    (plusAssign seriesA seriesB).s.getD 0 0 = seriesA.s.getD 0 0 :=
  ⟨(C7_frame_conditions seriesA seriesB).1.1,
   (C7_frame_conditions seriesA seriesB).2 0 (by decide)
     (Or.inl (by rw [nintAB]; decide))⟩

/-- C8: the sized constructor `CoreTimeSeries(n)` yields a sample buffer of
exactly `n` elements, all equal to 0, and once the object is marked live
every index `0 ≤ i < n` is readable through the checked accessor without
error. -/
theorem C8_sized_construction (n : ℕ) :
    (coreTimeSeriesSized n).s.length = n ∧
    (coreTimeSeriesSized n).s = List.replicate n 0 ∧
    (∀ i, i < n →
      getSample (set_live (coreTimeSeriesSized n)) i = Except.ok 0) := by
  refine ⟨by simp [coreTimeSeriesSized, coreTimeSeriesDefault], rfl, ?_⟩
  intro i hi
  have hlen : i < (set_live (coreTimeSeriesSized n)).s.length := by
    simpa [set_live, coreTimeSeriesSized, coreTimeSeriesDefault] using hi
  unfold getSample
  rw [if_pos ⟨rfl, hlen⟩, getD_eq_get _ _ hlen]
  congr 1
  show (List.replicate n (0 : ℚ)).get ⟨i, hlen⟩ = 0
  rw [List.get_eq_getElem, List.getElem_replicate]

/-- C8 witness: the two-sample sized construction has length 2 and its
sample 1 reads back as 0 once the object is live. -/
theorem C8_witness :
    (coreTimeSeriesSized 2).s.length = 2 ∧
    getSample (set_live (coreTimeSeriesSized 2)) 1 = Except.ok 0 :=
  ⟨(C8_sized_construction 2).1, (C8_sized_construction 2).2.2 1 (by decide)⟩

/-- C9: self-assignment `x = x` leaves x unchanged — its TimeBase fields,
attribute store and sample buffer all keep their prior values.  (In C++
the operator additionally returns a reference to x for chaining; in this
pure embedding the returned value of the target is the whole result, and
it equals x.) -/
theorem C9_self_assignment (x : CoreTimeSeries) : assign x x = x := rfl

/-- C10: `operator[]` takes its index as an unsigned `size_t`, so a
caller-supplied `-1` arrives as `2^64 - 1`; for every object whose buffer
is shorter than that (every realizable vector) the access is rejected with
the range-check error and no sample is read. -/
theorem C10_negative_index_rejected (x : CoreTimeSeries)
    (h : x.s.length < 2 ^ 64) :
    intToSizeT (-1) = 2 ^ 64 - 1 ∧
    getSample x (intToSizeT (-1)) = Except.error SeisppError.OutOfRange := by
  have h1 : intToSizeT (-1) = 2 ^ 64 - 1 := by
    unfold intToSizeT
    norm_num
    decide
  refine ⟨h1, ?_⟩
  unfold getSample
  rw [if_neg]
  rintro ⟨hl, hlt⟩
  rw [h1] at hlt
  omega

/-- C10 witness: indexing the three-sample live series A with the
converted `-1` fails with the range-check error. -/
theorem C10_witness :
    intToSizeT (-1) = 2 ^ 64 - 1 ∧
    getSample seriesA (intToSizeT (-1)) =
      Except.error SeisppError.OutOfRange :=
  C10_negative_index_rejected seriesA (by norm_num [seriesA])

end MsPASS
